import Mathlib

/-!
Shallow embedding of the expense-tracker service in `src/main.py`.

The `transactions` SQLite table is modelled as a list of rows plus the
AUTOINCREMENT counter; each tool of the service becomes a pure function on
that state.  Behaviour that the Python code obtains from SQLite is embedded
from SQLite's documented semantics: the `CHECK(type IN ('expense','credit'))`
column constraint rejects an INSERT with any other type value, a negative
`LIMIT` places no bound on the number of rows returned, and `LIMIT 0` returns
no rows.  Monetary amounts (SQLite `REAL`) are modelled as rationals.
The textual confirmations the tools return are modelled as inductive results
carrying exactly the values the Python f-strings interpolate.
-/

/-- One row of the `transactions` table (`src/main.py`, `init_db`):
`id INTEGER PRIMARY KEY AUTOINCREMENT, date TEXT, amount REAL, category TEXT,
type TEXT CHECK(type IN ('expense','credit')), note TEXT`. -/
structure Txn where
  id : Nat
  date : String
  amount : ℚ
  category : String
  type : String
  note : String
  deriving DecidableEq, Repr

/-- The persistent state: the table rows (in insertion order) together with the
AUTOINCREMENT counter, which assigns strictly increasing ids and never reuses
one after a delete. -/
structure Store where
  rows : List Txn
  nextId : Nat
  deriving DecidableEq, Repr

/-- The state right after `init_db` has created the empty table. -/
def initStore : Store := ⟨[], 1⟩

/-- The category→subcategories mapping loaded from `categories.json`. -/
abbrev Catalog := List (String × List String)

/-- The membership test of `add_transaction`:
`category not in data or subcategory not in data[category]`, negated. -/
def catalogValid (catalog : Catalog) (category subcategory : String) : Bool :=
  match catalog.lookup category with
  | some subs => subs.contains subcategory
  | none => false

/-- Result of `add_transaction`: the validation-error string, an insert
rejected by the `CHECK` column constraint, or the confirmation f-string
`"✅ Recorded {type}: ${amount} under {category}."` with its interpolated
values. -/
inductive AddResult where
  | invalidCategory : AddResult
  | checkViolation : AddResult
  | recorded (ty : String) (amount : ℚ) (category : String) : AddResult
  deriving DecidableEq, Repr

/-- `add_transaction(amount, category, subcategory, type="expense", note="")`:
validates the pair against the catalog before touching the database, then
inserts one row whose `category` is the composite `f"{category}:{subcategory}"`
and whose `date` is the current date (passed here as `today`).  The insert
itself is subject to the table's `CHECK` constraint on `type`. -/
def addTransaction (catalog : Catalog) (today : String) (amount : ℚ)
    (category subcategory : String) (ty : String := "expense")
    (note : String := "") (s : Store) : AddResult × Store :=
  if catalogValid catalog category subcategory = false then
    (.invalidCategory, s)
  else if ty = "expense" ∨ ty = "credit" then
    (.recorded ty amount category,
      { rows := s.rows ++ [⟨s.nextId, today, amount,
          category ++ ":" ++ subcategory, ty, note⟩],
        nextId := s.nextId + 1 })
  else
    (.checkViolation, s)

/-- The `ORDER BY id DESC` comparison of `list_transactions`. -/
def txnGE (a b : Txn) : Prop := b.id ≤ a.id

instance : DecidableRel txnGE := fun a b => Nat.decLe b.id a.id

instance : IsTotal Txn txnGE := ⟨fun a b => Nat.le_total b.id a.id⟩

instance : IsTrans Txn txnGE := ⟨fun _ _ _ hab hbc => le_trans hbc hab⟩

/-- `list_transactions(limit=20)`:
`SELECT * FROM transactions ORDER BY id DESC LIMIT ?`.  Per SQLite semantics a
negative `LIMIT` returns every row and `LIMIT 0` returns none. -/
def listTransactions (limit : Int) (s : Store) : List Txn :=
  if limit < 0 then List.insertionSort txnGE s.rows
  else (List.insertionSort txnGE s.rows).take limit.toNat

/-- Result of `update_transaction`: the unconditional confirmation f-string
`"✏️ Updated transaction {transaction_id}."`. -/
inductive UpdateResult where
  | updated (id : Nat) : UpdateResult
  deriving DecidableEq, Repr

/-- `UPDATE transactions SET amount = ? WHERE id = ?`. -/
def sqlUpdateAmount (tid : Nat) (a : ℚ) (rows : List Txn) : List Txn :=
  rows.map fun t => if t.id = tid then { t with amount := a } else t

/-- `UPDATE transactions SET note = ? WHERE id = ?`. -/
def sqlUpdateNote (tid : Nat) (n : String) (rows : List Txn) : List Txn :=
  rows.map fun t => if t.id = tid then { t with note := n } else t

/-- `update_transaction(transaction_id, amount=None, note=None)`: each UPDATE
runs only under Python truthiness (`if amount:` / `if note:`), so a supplied
`0` amount or `""` note is skipped exactly like an omitted argument; the
confirmation is returned regardless of whether any row matched. -/
def updateTransaction (tid : Nat) (amount : Option ℚ) (note : Option String)
    (s : Store) : UpdateResult × Store :=
  let rows1 := match amount with
    | some a => if a = 0 then s.rows else sqlUpdateAmount tid a s.rows
    | none => s.rows
  let rows2 := match note with
    | some n => if n = "" then rows1 else sqlUpdateNote tid n rows1
    | none => rows1
  (.updated tid, { s with rows := rows2 })

/-- Result of `delete_transaction`: the unconditional confirmation f-string
`"🗑️ Deleted transaction {transaction_id}."`. -/
inductive DeleteResult where
  | deleted (id : Nat) : DeleteResult
  deriving DecidableEq, Repr

/-- `delete_transaction(transaction_id)`:
`DELETE FROM transactions WHERE id = ?`, confirmation returned whether or not
any row matched. -/
def deleteTransaction (tid : Nat) (s : Store) : DeleteResult × Store :=
  (.deleted tid, { s with rows := s.rows.filter fun t => t.id != tid })

/-- One step of `SELECT type, SUM(amount) ... GROUP BY type`: add a row's
amount to its type's running sum, creating the group if absent. -/
def bumpGroup (ty : String) (a : ℚ) : List (String × ℚ) → List (String × ℚ)
  | [] => [(ty, a)]
  | (k, v) :: rest =>
      if k = ty then (k, v + a) :: rest else (k, v) :: bumpGroup ty a rest

/-- The per-type sums that `get_balance` reads into its `results` dict. -/
def groupSums (rows : List Txn) : List (String × ℚ) :=
  rows.foldl (fun g t => bumpGroup t.type t.amount g) []

/-- Python's `results.get(key, 0.0)`. -/
def dictGet (g : List (String × ℚ)) (ty : String) : ℚ :=
  match g with
  | [] => 0
  | (k, v) :: rest => if k = ty then v else dictGet rest ty

/-- The three values interpolated into `get_balance`'s summary string. -/
structure BalanceSummary where
  totalCredit : ℚ
  totalExpense : ℚ
  netBalance : ℚ
  deriving DecidableEq, Repr

/-- `get_balance()`: groups the table by `type`, then
`credits = results.get('credit', 0.0)`, `expenses = results.get('expense',
0.0)`, `balance = credits - expenses`. -/
def getBalance (s : Store) : BalanceSummary :=
  let results := groupSums s.rows
  let credits := dictGet results "credit"
  let expenses := dictGet results "expense"
  ⟨credits, expenses, credits - expenses⟩

/-- Specification-side aggregate (from the spec's words, for comparison with
`getBalance`): the sum of the amounts of the rows whose type is `ty`. -/
def sumOfType (ty : String) (rows : List Txn) : ℚ :=
  ((rows.filter fun t => t.type == ty).map Txn.amount).sum

/-- A call to one of the three mutating tools, with the nondeterministic
inputs (current date) made explicit. -/
inductive Op where
  | add (today : String) (amount : ℚ) (category subcategory ty note : String) : Op
  | update (tid : Nat) (amount : Option ℚ) (note : Option String) : Op
  | delete (tid : Nat) : Op

/-- The store state a tool call leaves behind (failed calls leave the state
unchanged). -/
def applyOp (catalog : Catalog) (s : Store) : Op → Store
  | .add today amount category subcategory ty note =>
      (addTransaction catalog today amount category subcategory ty note s).2
  | .update tid amount note => (updateTransaction tid amount note s).2
  | .delete tid => (deleteTransaction tid s).2

/-- The state reached from a fresh database by a sequence of tool calls. -/
def runOps (catalog : Catalog) (ops : List Op) : Store :=
  ops.foldl (applyOp catalog) initStore

/-- The effect of one `update_transaction` call on a single row: the row is
rewritten only when the corresponding argument is truthy and the row's id
matches.  `updateTransaction` is proved below to act row-wise as this
function. -/
def updRowModel (tid : Nat) (oa : Option ℚ) (om : Option String) (t : Txn) : Txn :=
  let t1 := match oa with
    | some a => if a = 0 then t else if t.id = tid then { t with amount := a } else t
    | none => t
  match om with
  | some n => if n = "" then t1 else if t1.id = tid then { t1 with note := n } else t1
  | none => t1

/-- Every stored row's `type` is one of the two values the `CHECK` constraint
admits. -/
def TypesOk (s : Store) : Prop :=
  ∀ t ∈ s.rows, t.type = "expense" ∨ t.type = "credit"

/-- A concrete catalog used for witness instances. -/
def demoCatalog : Catalog := [("food", ["grocery", "dining"]), ("income", ["salary"])]

/-- A concrete one-row store used for witness instances. -/
def demoStore1 : Store := ⟨[⟨1, "2026-10-10", 40, "food:grocery", "expense", ""⟩], 2⟩

/-- The store reached from a fresh database by three `add_transaction` calls
in sequence. -/
def store3 : Store :=
  (addTransaction demoCatalog "2026-10-12" 30 "food" "dining" "expense" ""
    (addTransaction demoCatalog "2026-10-11" 100 "income" "salary" "credit" ""
      (addTransaction demoCatalog "2026-10-10" 40 "food" "grocery" "expense" ""
        initStore).2).2).2

/-! ## Helper lemmas -/

/-- Everything `list_transactions` returns is a row of the table. -/
theorem mem_of_mem_listTransactions {limit : Int} {s : Store} {t : Txn}
    (ht : t ∈ listTransactions limit s) : t ∈ s.rows := by
  unfold listTransactions at ht
  split at ht
  · exact (List.perm_insertionSort txnGE s.rows).subset ht
  · exact (List.perm_insertionSort txnGE s.rows).subset (List.take_subset _ _ ht)

/-- Mapping a pointwise-identity function over a list changes nothing. -/
theorem map_updRow_eq_self {l : List Txn} {f : Txn → Txn} (h : ∀ t, f t = t) :
    l.map f = l := by
  rw [List.map_congr_left fun t _ => h t]
  simp

/-- `update_transaction` acts on the table row by row as `updRowModel`. -/
theorem updateTransaction_rows (tid : Nat) (oa : Option ℚ) (om : Option String)
    (s : Store) :
    (updateTransaction tid oa om s).2.rows = s.rows.map (updRowModel tid oa om) := by
  cases oa with
  | none =>
    cases om with
    | none =>
      exact (map_updRow_eq_self fun t => by simp [updRowModel]).symm
    | some n =>
      by_cases hn : n = ""
      · subst hn
        have h2 : (updateTransaction tid none (some "") s).2.rows = s.rows := by
          simp [updateTransaction]
        rw [h2]
        exact (map_updRow_eq_self fun t => by simp [updRowModel]).symm
      · simp [updateTransaction, updRowModel, sqlUpdateNote, hn]
  | some a =>
    by_cases ha : a = 0
    · subst ha
      cases om with
      | none =>
        have h2 : (updateTransaction tid (some 0) none s).2.rows = s.rows := by
          simp [updateTransaction]
        rw [h2]
        exact (map_updRow_eq_self fun t => by simp [updRowModel]).symm
      | some n =>
        by_cases hn : n = ""
        · subst hn
          have h2 : (updateTransaction tid (some 0) (some "") s).2.rows = s.rows := by
            simp [updateTransaction]
          rw [h2]
          exact (map_updRow_eq_self fun t => by simp [updRowModel]).symm
        · simp [updateTransaction, updRowModel, sqlUpdateNote, hn]
    · cases om with
      | none => simp [updateTransaction, updRowModel, sqlUpdateAmount, ha]
      | some n =>
        by_cases hn : n = "" <;>
          simp [updateTransaction, updRowModel, sqlUpdateAmount, sqlUpdateNote,
            List.map_map, ha, hn, Function.comp]

/-- Field-level description of `updRowModel`: id, date, category and type are
never touched; an omitted amount or note is never touched; a row whose id does
not match is never touched. -/
theorem updRowModel_fields (tid : Nat) (oa : Option ℚ) (om : Option String)
    (t : Txn) :
    (updRowModel tid oa om t).id = t.id ∧
    (updRowModel tid oa om t).date = t.date ∧
    (updRowModel tid oa om t).category = t.category ∧
    (updRowModel tid oa om t).type = t.type ∧
    (t.id ≠ tid → updRowModel tid oa om t = t) ∧
    (oa = none → (updRowModel tid oa om t).amount = t.amount) ∧
    (om = none → (updRowModel tid oa om t).note = t.note) := by
  unfold updRowModel
  cases oa with
  | none =>
    cases om with
    | none => simp
    | some n =>
      by_cases hn : n = ""
      · simp [hn]
      · by_cases hid : t.id = tid <;> simp [hn, hid]
  | some a =>
    by_cases ha : a = 0
    · cases om with
      | none => simp [ha]
      | some n =>
        by_cases hn : n = ""
        · simp [ha, hn]
        · by_cases hid : t.id = tid <;> simp [ha, hn, hid]
    · cases om with
      | none =>
        by_cases hid : t.id = tid <;> simp [ha, hid]
      | some n =>
        by_cases hn : n = ""
        · by_cases hid : t.id = tid <;> simp [ha, hn, hid]
        · by_cases hid : t.id = tid <;> simp [ha, hn, hid]

/-- Reading a key out of the dict after one `GROUP BY` accumulation step. -/
theorem dictGet_bumpGroup (k : String) (a : ℚ) (g : List (String × ℚ))
    (ty : String) :
    dictGet (bumpGroup k a g) ty = dictGet g ty + (if k = ty then a else 0) := by
  induction g with
  | nil => by_cases h : k = ty <;> simp [bumpGroup, dictGet, h]
  | cons p rest ih =>
    obtain ⟨k1, v⟩ := p
    by_cases hk : k1 = k
    · subst hk
      by_cases h : k1 = ty <;> simp [bumpGroup, dictGet, h]
    · by_cases h : k1 = ty
      · subst h
        have : ¬ k = k1 := fun hc => hk hc.symm
        simp [bumpGroup, dictGet, hk, this]
      · simp [bumpGroup, dictGet, hk, h, ih]

/-- Unfolding one row of the specification-side sum. -/
theorem sumOfType_cons (ty : String) (t : Txn) (rows : List Txn) :
    sumOfType ty (t :: rows) =
      (if t.type = ty then t.amount else 0) + sumOfType ty rows := by
  by_cases h : t.type = ty <;> simp [sumOfType, List.filter_cons, h]

/-- The `GROUP BY` fold computes, for each key, the specification-side sum. -/
theorem dictGet_foldl_bump (rows : List Txn) :
    ∀ (g : List (String × ℚ)) (ty : String),
      dictGet (rows.foldl (fun g t => bumpGroup t.type t.amount g) g) ty =
        dictGet g ty + sumOfType ty rows := by
  induction rows with
  | nil => intro g ty; simp [sumOfType]
  | cons t rows ih =>
    intro g ty
    simp only [List.foldl_cons]
    rw [ih, dictGet_bumpGroup, sumOfType_cons]
    ring

/-- `results.get(ty, 0.0)` after the `GROUP BY` equals the sum of the amounts
of the rows of that type. -/
theorem dictGet_groupSums (rows : List Txn) (ty : String) :
    dictGet (groupSums rows) ty = sumOfType ty rows := by
  simpa [dictGet] using dictGet_foldl_bump rows [] ty

/-- A single tool call preserves the `CHECK`-constraint invariant on `type`. -/
theorem typesOk_applyOp (catalog : Catalog) (s : Store) (op : Op)
    (h : TypesOk s) : TypesOk (applyOp catalog s op) := by
  cases op with
  | add today amount category subcategory ty note =>
    by_cases h1 : catalogValid catalog category subcategory = false
    · simpa [applyOp, addTransaction, h1] using h
    · by_cases h2 : ty = "expense" ∨ ty = "credit"
      · intro t ht
        simp [applyOp, addTransaction, h1, h2] at ht
        rcases ht with h3 | h3
        · exact h t h3
        · subst h3
          simpa using h2
      · simpa [applyOp, addTransaction, h1, h2] using h
  | update tid amount note =>
    intro t ht
    simp only [applyOp] at ht
    rw [updateTransaction_rows] at ht
    rcases List.mem_map.mp ht with ⟨u, hu, rfl⟩
    have h4 := (updRowModel_fields tid amount note u).2.2.2.1
    rw [h4]
    exact h u hu
  | delete tid =>
    intro t ht
    simp only [applyOp, deleteTransaction] at ht
    exact h t (List.mem_filter.mp ht).1

/-- Folding tool calls from a state satisfying the `type` invariant keeps it. -/
theorem typesOk_foldl (catalog : Catalog) (ops : List Op) :
    ∀ s : Store, TypesOk s → TypesOk (ops.foldl (applyOp catalog) s) := by
  induction ops with
  | nil => intro s h; simpa using h
  | cons op ops ih =>
    intro s h
    simp only [List.foldl_cons]
    exact ih _ (typesOk_applyOp catalog s op h)

/-! ## Claim theorems -/

/-- C1: for every (category, subcategory) pair absent from the catalog,
`add_transaction` returns the validation error and leaves the transaction
table exactly as it was (no row inserted). -/
theorem addTransaction_invalid_pair_rejected (catalog : Catalog) (today : String)
    (amount : ℚ) (category subcategory ty note : String) (s : Store)
    (h : catalogValid catalog category subcategory = false) :
    (addTransaction catalog today amount category subcategory ty note s).1 =
      AddResult.invalidCategory ∧
    (addTransaction catalog today amount category subcategory ty note s).2 = s := by
  constructor <;> simp [addTransaction, h]

/-- Witness for C1 at a pair absent from the demo catalog. -/
theorem addTransaction_invalid_pair_rejected_witness :
    catalogValid demoCatalog "travel" "flight" = false ∧
    ((addTransaction demoCatalog "2026-10-12" 9 "travel" "flight" "expense" ""
        store3).1 = AddResult.invalidCategory ∧
      (addTransaction demoCatalog "2026-10-12" 9 "travel" "flight" "expense" ""
        store3).2 = store3) :=
  ⟨by decide, addTransaction_invalid_pair_rejected demoCatalog "2026-10-12" 9
    "travel" "flight" "expense" "" store3 (by decide)⟩

/-- C2 (failing input of the falsy-omission defect): on a store holding
transaction 1 with amount 40, `update_transaction(1, amount=0)` leaves the
stored amount at 40 and the whole store unchanged, instead of setting the
amount to 0 as the specification requires. -/
theorem updateTransaction_amount_zero_dropped :
    ((updateTransaction 1 (some 0) none demoStore1).2.rows.map Txn.amount) = [40] ∧
    (updateTransaction 1 (some 0) none demoStore1).2 = demoStore1 := by
  constructor <;> decide

/-- C3: for every store and positive limit, `list_transactions` returns the
stored transactions sorted in descending id order, truncated to at most
`limit` entries; and on the concrete store built by three creations, limit 2
yields exactly the two most recently created, newest first. -/
theorem listTransactions_desc_truncated (s : Store) (limit : Int)
    (hpos : 0 < limit) :
    (∃ full : List Txn, full.Perm s.rows ∧ List.Sorted txnGE full ∧
      listTransactions limit s = full.take limit.toNat) ∧
    listTransactions 2 store3 =
      [⟨3, "2026-10-12", 30, "food:dining", "expense", ""⟩,
       ⟨2, "2026-10-11", 100, "income:salary", "credit", ""⟩] := by
  constructor
  · refine ⟨List.insertionSort txnGE s.rows, List.perm_insertionSort txnGE s.rows,
      List.sorted_insertionSort txnGE s.rows, ?_⟩
    unfold listTransactions
    rw [if_neg (by omega)]
  · decide

/-- Witness for C3 at the three-creation store with limit 2. -/
theorem listTransactions_desc_truncated_witness :
    (0 : Int) < 2 ∧
    ((∃ full : List Txn, full.Perm store3.rows ∧ List.Sorted txnGE full ∧
        listTransactions 2 store3 = full.take (2 : Int).toNat) ∧
      listTransactions 2 store3 =
        [⟨3, "2026-10-12", 30, "food:dining", "expense", ""⟩,
         ⟨2, "2026-10-11", 100, "income:salary", "credit", ""⟩]) :=
  ⟨by decide, listTransactions_desc_truncated store3 2 (by decide)⟩

/-- C4: `get_balance` reports the sum of credit amounts, the sum of expense
amounts, and their difference; on the empty store all three are 0. -/
theorem getBalance_sums_by_type (s : Store) :
    (getBalance s).totalCredit = sumOfType "credit" s.rows ∧
    (getBalance s).totalExpense = sumOfType "expense" s.rows ∧
    (getBalance s).netBalance =
      (getBalance s).totalCredit - (getBalance s).totalExpense ∧
    getBalance initStore = ⟨0, 0, 0⟩ := by
  refine ⟨?_, ?_, ?_, ?_⟩
  · simp [getBalance, dictGet_groupSums]
  · simp [getBalance, dictGet_groupSums]
  · simp [getBalance]
  · simp [getBalance, groupSums, initStore, dictGet]

/-- C5: for every (category, subcategory) pair present in the catalog and a
type accepted by the `CHECK` constraint, `add_transaction` succeeds, appends
one row whose category field is the composite `"category:subcategory"`, and
returns the confirmation carrying the amount, the type and the category. -/
theorem addTransaction_valid_pair_succeeds (catalog : Catalog) (today : String)
    (amount : ℚ) (category subcategory ty note : String) (s : Store)
    (hv : catalogValid catalog category subcategory = true)
    (hty : ty = "expense" ∨ ty = "credit") :
    (addTransaction catalog today amount category subcategory ty note s).1 =
      AddResult.recorded ty amount category ∧
    (addTransaction catalog today amount category subcategory ty note s).2.rows =
      s.rows ++ [⟨s.nextId, today, amount, category ++ ":" ++ subcategory, ty,
        note⟩] := by
  constructor <;> simp [addTransaction, hv, hty]

/-- Witness for C5 at a valid pair of the demo catalog. -/
theorem addTransaction_valid_pair_succeeds_witness :
    (catalogValid demoCatalog "income" "salary" = true ∧
      ("credit" = "expense" ∨ "credit" = "credit")) ∧
    ((addTransaction demoCatalog "2026-10-12" 100 "income" "salary" "credit"
        "pay" demoStore1).1 = AddResult.recorded "credit" 100 "income" ∧
      (addTransaction demoCatalog "2026-10-12" 100 "income" "salary" "credit"
        "pay" demoStore1).2.rows = demoStore1.rows ++
          [⟨demoStore1.nextId, "2026-10-12", 100, "income" ++ ":" ++ "salary",
            "credit", "pay"⟩]) :=
  ⟨⟨by decide, Or.inr rfl⟩, addTransaction_valid_pair_succeeds demoCatalog
    "2026-10-12" 100 "income" "salary" "credit" "pay" demoStore1 (by decide)
    (Or.inr rfl)⟩

/-- C6 (failing input): on the empty store, which holds no transaction with
id 7, `update_transaction(7, amount=5)` reports the success confirmation and
changes nothing, rather than failing with a not-found error. -/
theorem updateTransaction_missing_id_reports_success :
    (updateTransaction 7 (some 5) none initStore).1 = UpdateResult.updated 7 ∧
    (updateTransaction 7 (some 5) none initStore).2 = initStore := by
  constructor <;> decide

/-- C7: `update_transaction` relates every stored row to the corresponding row
afterwards: id, date, category and type are never changed, rows with a
different id are untouched, and an omitted amount or note argument leaves that
field exactly as it was. -/
theorem updateTransaction_frame (s : Store) (tid : Nat) (oa : Option ℚ)
    (om : Option String) :
    List.Forall₂
      (fun t t2 =>
        t2.id = t.id ∧ t2.date = t.date ∧ t2.category = t.category ∧
        t2.type = t.type ∧ (t.id ≠ tid → t2 = t) ∧
        (oa = none → t2.amount = t.amount) ∧ (om = none → t2.note = t.note))
      s.rows (updateTransaction tid oa om s).2.rows := by
  rw [updateTransaction_rows, List.forall₂_map_right_iff, List.forall₂_same]
  intro t _
  exact updRowModel_fields tid oa om t

/-- Witness for C7 on the one-row demo store with only the note supplied. -/
theorem updateTransaction_frame_witness :
    List.Forall₂
      (fun t t2 =>
        t2.id = t.id ∧ t2.date = t.date ∧ t2.category = t.category ∧
        t2.type = t.type ∧ (t.id ≠ 1 → t2 = t) ∧
        ((none : Option ℚ) = none → t2.amount = t.amount) ∧
        ((some "lunch" : Option String) = none → t2.note = t.note))
      demoStore1.rows (updateTransaction 1 none (some "lunch") demoStore1).2.rows :=
  updateTransaction_frame demoStore1 1 none (some "lunch")

/-- C8: in every state reachable from a fresh database by any sequence of
tool calls, every stored transaction's type is `expense` or `credit`. -/
theorem runOps_type_invariant (catalog : Catalog) (ops : List Op) (t : Txn)
    (ht : t ∈ (runOps catalog ops).rows) :
    t.type = "expense" ∨ t.type = "credit" :=
  typesOk_foldl catalog ops initStore
    (by intro u hu; simp [initStore] at hu) t ht

/-- Witness for C8 after one successful creation. -/
theorem runOps_type_invariant_witness :
    ((⟨1, "2026-10-10", 40, "food:grocery", "expense", ""⟩ : Txn) ∈
      (runOps demoCatalog
        [Op.add "2026-10-10" 40 "food" "grocery" "expense" ""]).rows) ∧
    ((⟨1, "2026-10-10", 40, "food:grocery", "expense", ""⟩ : Txn).type =
        "expense" ∨
      (⟨1, "2026-10-10", 40, "food:grocery", "expense", ""⟩ : Txn).type =
        "credit") :=
  ⟨by decide, runOps_type_invariant demoCatalog
    [Op.add "2026-10-10" 40 "food" "grocery" "expense" ""] _ (by decide)⟩

/-- C9: after `delete_transaction(id)`, no `list_transactions` result contains
a record with that id; a second delete on the same id uniformly follows the
successful-no-op policy: it returns the success confirmation and leaves the
store unchanged. -/
theorem deleteTransaction_removes_and_second_noop (s : Store) (tid : Nat)
    (limit : Int) :
    (∀ t ∈ listTransactions limit (deleteTransaction tid s).2, t.id ≠ tid) ∧
    (deleteTransaction tid (deleteTransaction tid s).2).1 =
      DeleteResult.deleted tid ∧
    (deleteTransaction tid (deleteTransaction tid s).2).2 =
      (deleteTransaction tid s).2 := by
  refine ⟨?_, rfl, ?_⟩
  · intro t ht
    have h1 := mem_of_mem_listTransactions ht
    simp only [deleteTransaction] at h1
    have h2 := (List.mem_filter.mp h1).2
    simpa using h2
  · have h3 : ∀ rows : List Txn,
        (rows.filter fun t => t.id != tid).filter (fun t => t.id != tid) =
          rows.filter fun t => t.id != tid :=
      fun rows => List.filter_eq_self.mpr fun a ha => (List.mem_filter.mp ha).2
    simp [deleteTransaction, h3]

/-- Witness for C9 deleting id 1 out of the three-creation store. -/
theorem deleteTransaction_removes_and_second_noop_witness :
    (∀ t ∈ listTransactions 20 (deleteTransaction 1 store3).2, t.id ≠ 1) ∧
    (deleteTransaction 1 (deleteTransaction 1 store3).2).1 =
      DeleteResult.deleted 1 ∧
    (deleteTransaction 1 (deleteTransaction 1 store3).2).2 =
      (deleteTransaction 1 store3).2 :=
  deleteTransaction_removes_and_second_noop store3 1 20

/-- C10: `list_transactions` with limit 0 returns the empty sequence, and with
any negative limit returns all stored rows in descending id order (SQLite
treats a negative LIMIT as unlimited); being a pure query it neither fails nor
modifies the store. -/
theorem listTransactions_zero_neg_limits (s : Store) (limit : Int)
    (hneg : limit < 0) :
    listTransactions 0 s = [] ∧
    (listTransactions limit s).Perm s.rows ∧
    List.Sorted txnGE (listTransactions limit s) := by
  refine ⟨?_, ?_, ?_⟩
  · unfold listTransactions
    rw [if_neg (by omega)]
    simp
  · unfold listTransactions
    rw [if_pos hneg]
    exact List.perm_insertionSort txnGE s.rows
  · unfold listTransactions
    rw [if_pos hneg]
    exact List.sorted_insertionSort txnGE s.rows

/-- Witness for C10 at limit -1 on the three-creation store. -/
theorem listTransactions_zero_neg_limits_witness :
    listTransactions 0 store3 = [] ∧
    (listTransactions (-1) store3).Perm store3.rows ∧
    List.Sorted txnGE (listTransactions (-1) store3) :=
  listTransactions_zero_neg_limits store3 (-1) (by decide)
